import Mathlib

/-!
Verification development for the alphasparrow bot (`src/ttbs.py`).

Shallow embedding conventions:
* Python floats parsed from the exchange's decimal strings are modelled as `ℚ`.
* HTTP calls are modelled by passing the upstream outcome (or the fetch result)
  as an explicit argument; an exception raised inside a `try` block is modelled
  as an `Except.error` value consumed by the embedded handler.
* The JSON time-series log `crypto_data.json` is a `List TSRecord`; the string
  sentinel `"N/A"` stored for a failed fetch is the constructor `Sample.na`.
* Python's `list.sort` and `sorted` are stable sorts; they are embedded as
  `List.insertionSort`, which is also stable, and a stable sort by a fixed key
  is uniquely determined by its input, so the embedding is exact.
-/

namespace Ttbs

/-- Watch-list of coins, `TOP_COINS` in the source (line 40). -/
def TOP_COINS : List String := [("BTC"), ("ETH"), ("BNB"), ("ADA"), ("XRP")]

/-- Embedding of the signal-classification branch of `get_live_trading_signal`
(lines 89-94): `change > 2` gives Strong Buy, `change < -2` gives Strong Sell,
otherwise Hold.  The local variable in the source is named `signal`. -/
def signal (change : ℚ) : String :=
  if change > 2 then ("📈 Strong Buy")
  else if change < -2 then ("📉 Strong Sell")
  else ("🔄 Hold")

/-- Embedding of the risk-classification branch of `post_risk_meter`
(lines 446-452): `value < 25` gives High Risk, `25 <= value < 50` gives
Medium Risk, otherwise Low Risk.  The local variable is named `risk_level`. -/
def risk_level (value : ℤ) : String :=
  if value < 25 then ("High Risk")
  else if 25 ≤ value ∧ value < 50 then ("Medium Risk")
  else ("Low Risk")

/-- One entry of the full 24hr ticker batch, with the two fields the top-movers
formatter reads after parsing (`symbol`, `lastPrice`, `priceChangePercent`). -/
structure Ticker where
  symbol : String
  lastPrice : ℚ
  priceChangePercent : ℚ
deriving DecidableEq

/-- Ascending comparison key used by `usdt_tickers.sort(key=...)` (line 124). -/
def pctLe (a b : Ticker) : Prop := a.priceChangePercent ≤ b.priceChangePercent

/-- Descending comparison used by `sorted(..., reverse=True)` (line 126). -/
def pctGe (a b : Ticker) : Prop := b.priceChangePercent ≤ a.priceChangePercent

instance : DecidableRel pctLe := fun a b =>
  inferInstanceAs (Decidable (a.priceChangePercent ≤ b.priceChangePercent))

instance : DecidableRel pctGe := fun a b =>
  inferInstanceAs (Decidable (b.priceChangePercent ≤ a.priceChangePercent))

instance : IsTotal Ticker pctLe :=
  ⟨fun a b => le_total a.priceChangePercent b.priceChangePercent⟩

instance : IsTrans Ticker pctLe := ⟨fun _ _ _ h h' => le_trans h h'⟩

instance : IsTotal Ticker pctGe :=
  ⟨fun a b => le_total b.priceChangePercent a.priceChangePercent⟩

instance : IsTrans Ticker pctGe := ⟨fun _ _ _ h h' => le_trans h' h⟩

/-- Embedding of Python's `str.endswith`: a character-level suffix test. -/
def endswith (s suffix_s : String) : Bool := suffix_s.data.isSuffixOf s.data

/-- Line 123 of `get_top_gainers_losers`: keep tickers whose symbol ends in
the settlement currency suffix. -/
def usdt_tickers (tickers : List Ticker) : List Ticker :=
  tickers.filter (fun t => endswith t.symbol ("USDT"))

/-- Line 124: `usdt_tickers.sort(key=lambda t: float(t["priceChangePercent"]))`,
a stable ascending sort by percent change. -/
def sorted_usdt (tickers : List Ticker) : List Ticker :=
  List.insertionSort pctLe (usdt_tickers tickers)

/-- Line 125: `top5_losers = usdt_tickers[:5]`. -/
def top5_losers (tickers : List Ticker) : List Ticker :=
  (sorted_usdt tickers).take 5

/-- Line 126: `top5_gainers = sorted(usdt_tickers[-5:], key=..., reverse=True)`.
The Python slice `l[-5:]` is `drop (length - 5)` (the whole list when shorter
than 5), and `sorted(..., reverse=True)` is a stable descending sort. -/
def top5_gainers (tickers : List Ticker) : List Ticker :=
  List.insertionSort pctGe
    ((sorted_usdt tickers).drop ((sorted_usdt tickers).length - 5))

/-- Value stored for one coin in a `TimeSeriesRecord`: a float price or the
string sentinel `"N/A"` (line 372). -/
inductive Sample
| num (q : ℚ)
| na
deriving DecidableEq

/-- One record of `crypto_data.json`: `{"timestamp": ..., "data": {...}}`
(line 369); the `data` dict is an association list keyed by coin. -/
structure TSRecord where
  timestamp : ℤ
  data : List (String × Sample)
deriving DecidableEq

/-- Outcome of reading the log file: the file may be absent
(`os.path.exists` false), unreadable or corrupt (`open`/`json.load` raises),
or parse to a list of records. -/
inductive LogRead
| missing
| corrupt
| ok (records : List TSRecord)

/-- The record built by `record_crypto_data` (lines 368-372): for every coin in
`TOP_COINS`, the fetched price when the fetch succeeded, else the `"N/A"`
sentinel.  `fetch` gives each coin's `fetch_binance_price` result. -/
def record (fetch : String → Option ℚ) (ts : ℤ) : TSRecord :=
  { timestamp := ts
    data := TOP_COINS.map (fun coin =>
      (coin, match fetch coin with
             | some p => Sample.num p
             | none => Sample.na)) }

/-- Lines 373-381 of `record_crypto_data`: the existing log, with a missing
file or a read failure both yielding the empty list. -/
def existing_data : LogRead → List TSRecord
| .ok records => records
| _ => []

/-- Lines 366-385 of `record_crypto_data`: read the prior log (degrading to
empty) and append the freshly built record; the result is the list passed to
`json.dump`. -/
def record_crypto_data (fetch : String → Option ℚ) (ts : ℤ) (read : LogRead) :
    List TSRecord :=
  existing_data read ++ [record fetch ts]

/-- Line 338 of `post_daily_summary`: retain records whose timestamp is at
least `now - window`. -/
def recent_records (records : List TSRecord) (now window : ℤ) : List TSRecord :=
  records.filter (fun r => now - window ≤ r.timestamp)

/-- Line 347: `[r["data"].get(coin) for r in recent_records if
isinstance(r["data"].get(coin), (int, float))]` — the numeric samples for one
coin, in record order; a missing key or the `"N/A"` sentinel is skipped. -/
def prices (recent : List TSRecord) (coin : String) : List ℚ :=
  recent.filterMap (fun r =>
    match r.data.lookup coin with
    | some (Sample.num q) => some q
    | _ => none)

/-- One row of the daily-summary table (lines 349-354), with the source's
local variable names as fields. -/
structure CoinRow where
  start_price : ℚ
  end_price : ℚ
  high : ℚ
  low : ℚ
  change_percent : ℚ
deriving DecidableEq

/-- Lines 347-356: the summary row for one coin — `none` renders the `"N/A"`
row, otherwise first/last/max/min of the present samples and the zero-guarded
percent change. -/
def summary_row (recent : List TSRecord) (coin : String) : Option CoinRow :=
  match prices recent coin with
  | [] => none
  | p :: ps =>
    let e := (p :: ps).getLast (List.cons_ne_nil p ps)
    some { start_price := p
           end_price := e
           high := ps.foldl max p
           low := ps.foldl min p
           change_percent := if p ≠ 0 then (e - p) / p * 100 else 0 }

/-- The message content `post_daily_summary` publishes: the fixed no-data text
or the per-coin table. -/
inductive SummaryMsg
| no_data
| table (rows : List (String × Option CoinRow))
deriving DecidableEq

/-- Observable outcome of one `post_daily_summary` run: either nothing is sent
(missing file, or an exception such as a corrupt log caught at line 363) or a
message is posted. -/
inductive SummaryOutcome
| no_post
| posted (msg : SummaryMsg)
deriving DecidableEq

/-- Lines 328-364 of `post_daily_summary`: a missing file only logs (line 362,
nothing posted); a corrupt file raises inside the `try` and the handler posts
nothing; otherwise the trailing-window table (or the no-data text when no
record is recent) is posted. -/
def post_daily_summary (read : LogRead) (now window : ℤ) : SummaryOutcome :=
  match read with
  | .missing => .no_post
  | .corrupt => .no_post
  | .ok records =>
    let recent := recent_records records now window
    if recent.isEmpty then .posted .no_data
    else .posted (.table (TOP_COINS.map (fun coin => (coin, summary_row recent coin))))

/-- Parse outcome of the `"price"` field: `float(...)` either raises (a
malformed value) or yields a number. -/
inductive PriceParse
| malformed
| value (q : ℚ)
deriving DecidableEq

/-- Upstream outcome seen inside `fetch_binance_price` (lines 48-51): the
request or JSON decode raises, or a JSON object arrives whose `"price"` field
is absent (`none`) or present with a parse outcome. -/
inductive UpstreamPrice
| error
| response (priceField : Option PriceParse)
deriving DecidableEq

/-- Lines 46-57, `fetch_binance_price`: every internal failure — a raised
request, a missing `"price"` field, or a `float(...)` parse failure caught by
the `except` — becomes `none`; only a well-formed response yields a price. -/
def fetch_binance_price : UpstreamPrice → Option ℚ
| .error => none
| .response none => none
| .response (some PriceParse.malformed) => none
| .response (some (PriceParse.value q)) => some q

/-- Upstream outcome seen inside `fetch_binance_ticker` (lines 59-67): the
request or JSON decode raises, or a JSON object arrives whose
`"priceChangePercent"` field is absent or present with a parse outcome. -/
inductive UpstreamTicker
| error
| response (priceChangePercent : Option PriceParse)
deriving DecidableEq

/-- Lines 59-67, `fetch_binance_ticker`: a raised request yields `None`;
otherwise the decoded JSON object is returned as-is. -/
def fetch_binance_ticker : UpstreamTicker → Option (Option PriceParse)
| .error => none
| .response f => some f

/-- One row of the top-5 live-update table (lines 295-302): a data row, the
`Data err` row when the percent parse raises, or the `N/A` row. -/
inductive Row
| data (price change : ℚ)
| dataErr
| na
deriving DecidableEq

/-- Lines 295-302 of `post_top5_update`: the row for one coin, from its ticker
and price fetch results. -/
def top5_row (ticker : Option (Option PriceParse)) (price : Option ℚ) : Row :=
  match ticker, price with
  | some (some (PriceParse.value c)), some p => Row.data p c
  | some (some PriceParse.malformed), some _ => Row.dataErr
  | _, _ => Row.na

/-- Inputs of one `post_top5_update` run: the upstream outcome of each coin's
two fetches and the outcome of `app.send_message`. -/
structure Top5Env where
  ticker : String → UpstreamTicker
  price : String → UpstreamPrice
  publish : Except Unit Unit

/-- Body of `post_top5_update` (lines 287-306) before its `except` handler:
build the rows and publish; only the publish step can still raise, as both
fetch helpers already swallow their failures. -/
def post_top5_update_body (env : Top5Env) : Except Unit (List Row) :=
  let rows := TOP_COINS.map (fun coin =>
    top5_row (fetch_binance_ticker (env.ticker coin)) (fetch_binance_price (env.price coin)))
  match env.publish with
  | .ok _ => .ok rows
  | .error e => .error e

/-- Lines 285-308, `post_top5_update` as the scheduler sees it: the whole body
is wrapped in `try/except`, so any raised error is logged and swallowed. -/
def post_top5_update (env : Top5Env) : Except Unit Unit :=
  match post_top5_update_body env with
  | .ok _ => .ok ()
  | .error _ => .ok ()

/-- One entry of the decoded `results` array of the Cryptopanic response: a
JSON object (from which `post.get` reads title and url) or a non-object value
(on which `post.get` raises). -/
inductive NewsEntry
| post (title url : String)
| notObj
deriving DecidableEq

/-- Upstream outcome seen inside `fetch_cryptopanic_news` (lines 71-75): the
request or JSON decode raises, or a JSON value arrives whose `"results"` field
is absent (`none`) or holds a list of entries. -/
inductive UpstreamNews
| error
| response (results : Option (List NewsEntry))
deriving DecidableEq

/-- Lines 69-78, `fetch_cryptopanic_news`: any failure raised inside the `try`
becomes the empty list; otherwise the first `limit = 3` entries of `results`
are returned as-is, with no validation of the entries themselves. -/
def fetch_cryptopanic_news : UpstreamNews → List NewsEntry
| UpstreamNews.error => []
| UpstreamNews.response none => []
| UpstreamNews.response (some posts) => posts.take 3

/-- The formatting loop of `get_crypto_news_text` (lines 159-162): collect each
entry's title and url; iterating onto a non-object entry raises (modelled as
`Except.error`), since `post.get` only exists on objects. -/
def news_lines : List NewsEntry → Except Unit (List (String × String))
| [] => Except.ok []
| NewsEntry.post title url :: rest =>
  match news_lines rest with
  | Except.ok items => Except.ok ((title, url) :: items)
  | Except.error e => Except.error e
| NewsEntry.notObj :: _ => Except.error ()

/-- The message `get_crypto_news_text` produces: the formatted news list or the
fixed no-news text. -/
inductive NewsMsg
| items (entries : List (String × String))
| noNews
deriving DecidableEq

/-- Lines 154-164, `get_crypto_news_text`: empty posts yield the no-news text;
otherwise the formatting loop runs, and it has no handler — an error raised by
the loop propagates to the caller. -/
def get_crypto_news_text (news : UpstreamNews) : Except Unit NewsMsg :=
  match fetch_cryptopanic_news news with
  | [] => Except.ok NewsMsg.noNews
  | p :: ps =>
    match news_lines (p :: ps) with
    | Except.ok items => Except.ok (NewsMsg.items items)
    | Except.error e => Except.error e

/-- Lines 310-317, `post_crypto_news`: the formatter is called OUTSIDE the
`try` block (line 312), so a format error propagates out of the job; only the
`app.send_message` publish step is inside the `try/except`. -/
def post_crypto_news (news : UpstreamNews) (publish : Except Unit Unit) :
    Except Unit Unit :=
  match get_crypto_news_text news with
  | Except.error e => Except.error e
  | Except.ok _ =>
    match publish with
    | Except.ok _ => Except.ok ()
    | Except.error _ => Except.ok ()

/-- One scheduler tick (lines 725-746): every registered job runs its action;
the recorded booleans say whether each body succeeded, and a failure is
swallowed, never stopping the tick. -/
def scheduler_tick (jobs : List (ℕ → Except Unit Unit)) (t : ℕ) : List Bool :=
  jobs.map (fun job => (job t).isOk)

/-- The scheduler's run over `n` ticks: each tick executes unconditionally,
independent of any earlier job failures. -/
def scheduler_run (jobs : List (ℕ → Except Unit Unit)) : ℕ → List (List Bool)
| 0 => []
| t + 1 => scheduler_run jobs t ++ [scheduler_tick jobs t]

/-- The batch snapshot of the spec's scenario: exactly the five USDT tickers
BTC at +3.5%, ETH at -3.0%, BNB at +0.1%, ADA at -5.0% and XRP at +0.2%. -/
def snapshot_batch : List Ticker :=
  [⟨("BTCUSDT"), 1, 7 / 2⟩, ⟨("ETHUSDT"), 1, -3⟩, ⟨("BNBUSDT"), 1, 1 / 10⟩,
   ⟨("ADAUSDT"), 1, -5⟩, ⟨("XRPUSDT"), 1, 1 / 5⟩]

/-- Concrete one-record log used in examples: BTC at 100 at time 0. -/
def recs0 : List TSRecord := [⟨0, [(("BTC"), Sample.num 100)]⟩]

/-- Concrete fetch outcome used in examples: BTC fetched at 200, every other
coin's fetch failed. -/
def fetch0 : String → Option ℚ := fun coin => if coin = ("BTC") then some 200 else none

/-- Concrete log whose first present BTC sample is 0 (a zero start price). -/
def recsZero : List TSRecord :=
  [⟨0, [(("BTC"), Sample.num 0)]⟩, ⟨0, [(("BTC"), Sample.num 5)]⟩]

/-- Concrete two-record log for the window example: one in-window record with
BTC at 3 and one stale record with BTC at 7. -/
def recsWindow : List TSRecord :=
  [⟨0, [(("BTC"), Sample.num 3)]⟩, ⟨-100, [(("BTC"), Sample.num 7)]⟩]

/-- Example job whose body raises on its first tick and succeeds afterwards. -/
def job_fail : ℕ → Except Unit Unit := fun t => if t = 0 then Except.error () else Except.ok ()

/-- Example job whose body always succeeds. -/
def job_ok : ℕ → Except Unit Unit := fun _ => Except.ok ()

end Ttbs

namespace Ttbs

/-- Helper: a left fold of `max` over a list is one of its elements. -/
lemma foldl_max_mem (x : ℚ) (xs : List ℚ) : xs.foldl max x ∈ x :: xs := by
  induction xs generalizing x with
  | nil => simp
  | cons y ys ih =>
    simp only [List.foldl_cons]
    rcases List.mem_cons.mp (ih (max x y)) with h | h
    · rcases max_choice x y with h' | h'
      · rw [h, h']
        exact List.mem_cons_self _ _
      · rw [h, h']
        exact List.mem_cons_of_mem _ (List.mem_cons_self _ _)
    · exact List.mem_cons_of_mem _ (List.mem_cons_of_mem _ h)

/-- Helper: a left fold of `max` bounds every element from above. -/
lemma le_foldl_max (x : ℚ) (xs : List ℚ) : ∀ q ∈ x :: xs, q ≤ xs.foldl max x := by
  induction xs generalizing x with
  | nil =>
    intro q hq
    simp only [List.mem_singleton] at hq
    simp [hq]
  | cons y ys ih =>
    intro q hq
    simp only [List.foldl_cons]
    rcases List.mem_cons.mp hq with h | h
    · subst h
      exact le_trans (le_max_left q y) (ih (max q y) _ (List.mem_cons_self _ _))
    · rcases List.mem_cons.mp h with h2 | h2
      · subst h2
        exact le_trans (le_max_right x q) (ih (max x q) _ (List.mem_cons_self _ _))
      · exact ih (max x y) q (List.mem_cons_of_mem _ h2)

/-- Helper: a left fold of `min` over a list is one of its elements. -/
lemma foldl_min_mem (x : ℚ) (xs : List ℚ) : xs.foldl min x ∈ x :: xs := by
  induction xs generalizing x with
  | nil => simp
  | cons y ys ih =>
    simp only [List.foldl_cons]
    rcases List.mem_cons.mp (ih (min x y)) with h | h
    · rcases min_choice x y with h' | h'
      · rw [h, h']
        exact List.mem_cons_self _ _
      · rw [h, h']
        exact List.mem_cons_of_mem _ (List.mem_cons_self _ _)
    · exact List.mem_cons_of_mem _ (List.mem_cons_of_mem _ h)

/-- Helper: a left fold of `min` bounds every element from below. -/
lemma foldl_min_le (x : ℚ) (xs : List ℚ) : ∀ q ∈ x :: xs, xs.foldl min x ≤ q := by
  induction xs generalizing x with
  | nil =>
    intro q hq
    simp only [List.mem_singleton] at hq
    simp [hq]
  | cons y ys ih =>
    intro q hq
    simp only [List.foldl_cons]
    rcases List.mem_cons.mp hq with h | h
    · subst h
      exact le_trans (ih (min q y) _ (List.mem_cons_self _ _)) (min_le_left q y)
    · rcases List.mem_cons.mp h with h2 | h2
      · subst h2
        exact le_trans (ih (min x q) _ (List.mem_cons_self _ _)) (min_le_right x q)
      · exact ih (min x y) q (List.mem_cons_of_mem _ h2)

/-- Helper: looking up a watched coin in the freshly built record yields its
fetch result, price or sentinel. -/
lemma lookup_record (fetch : String → Option ℚ) (ts : ℤ) (coin : String)
    (hc : coin ∈ TOP_COINS) :
    (record fetch ts).data.lookup coin =
      some (match fetch coin with
            | some p => Sample.num p
            | none => Sample.na) := by
  have hc' : coin = ("BTC") ∨ coin = ("ETH") ∨ coin = ("BNB") ∨ coin = ("ADA") ∨
      coin = ("XRP") := by
    simpa [TOP_COINS] using hc
  rcases hc' with h | h | h | h | h <;> subst h <;>
    simp [record, TOP_COINS, List.lookup]

/-- C3: for every percent-change value `v`, the trading-signal classifier
returns Strong Buy iff `v > 2`, Strong Sell iff `v < -2`, and Hold otherwise;
`v = 2` classifies as Hold and `v = 2.0001` as Strong Buy. -/
theorem signal_classification :
    ∀ v : ℚ,
      (signal v = ("📈 Strong Buy") ↔ v > 2) ∧
      (signal v = ("📉 Strong Sell") ↔ v < -2) ∧
      (signal v = ("🔄 Hold") ↔ ¬ v > 2 ∧ ¬ v < -2) ∧
      signal 2 = ("🔄 Hold") ∧
      signal (20001 / 10000) = ("📈 Strong Buy") := by
  intro v
  refine ⟨?_, ?_, ?_, by norm_num [signal], by norm_num [signal]⟩
  · unfold signal
    split_ifs with h1 h2
    · exact iff_of_true rfl h1
    · exact iff_of_false (by decide) h1
    · exact iff_of_false (by decide) h1
  · unfold signal
    split_ifs with h1 h2
    · exact iff_of_false (by decide) (by intro hc; linarith)
    · exact iff_of_true rfl h2
    · exact iff_of_false (by decide) h2
  · unfold signal
    split_ifs with h1 h2
    · exact iff_of_false (by decide) (fun hc => hc.1 h1)
    · exact iff_of_false (by decide) (fun hc => hc.2 h2)
    · exact iff_of_true rfl ⟨h1, h2⟩

/-- C4: for every sentiment-index value, the risk classifier returns High Risk
iff the value is below 25, Medium Risk iff it is in `[25, 50)`, and Low Risk
iff it is at least 50; in particular at 24, 25, 49 and 50 it returns
High, Medium, Medium and Low Risk respectively. -/
theorem risk_level_classification :
    ∀ s : ℤ,
      (risk_level s = ("High Risk") ↔ s < 25) ∧
      (risk_level s = ("Medium Risk") ↔ 25 ≤ s ∧ s < 50) ∧
      (risk_level s = ("Low Risk") ↔ 50 ≤ s) ∧
      risk_level 24 = ("High Risk") ∧
      risk_level 25 = ("Medium Risk") ∧
      risk_level 49 = ("Medium Risk") ∧
      risk_level 50 = ("Low Risk") := by
  intro s
  refine ⟨?_, ?_, ?_, by decide, by decide, by decide, by decide⟩
  · unfold risk_level
    split_ifs with h1 h2
    · exact iff_of_true rfl h1
    · exact iff_of_false (by decide) (by omega)
    · exact iff_of_false (by decide) (by omega)
  · unfold risk_level
    split_ifs with h1 h2
    · exact iff_of_false (by decide) (by omega)
    · exact iff_of_true rfl h2
    · exact iff_of_false (by decide) (by omega)
  · unfold risk_level
    split_ifs with h1 h2
    · exact iff_of_false (by decide) (by omega)
    · exact iff_of_false (by decide) (by omega)
    · exact iff_of_true rfl (by omega)

/-- C6: one invocation of the recorder's append produces exactly the old log
with one new record at the end — prior records unchanged and in order — and
the appended record maps every watched coin to its fetched price, or to the
`N/A` sentinel when the fetch failed, never omitting a key. -/
theorem record_crypto_data_appends :
    ∀ (fetch : String → Option ℚ) (ts : ℤ) (records : List TSRecord),
      record_crypto_data fetch ts (LogRead.ok records) = records ++ [record fetch ts] ∧
      (record_crypto_data fetch ts (LogRead.ok records)).take records.length = records ∧
      (record_crypto_data fetch ts (LogRead.ok records)).length = records.length + 1 ∧
      (record fetch ts).timestamp = ts ∧
      (∀ coin ∈ TOP_COINS, ∀ p, fetch coin = some p →
          (record fetch ts).data.lookup coin = some (Sample.num p)) ∧
      (∀ coin ∈ TOP_COINS, fetch coin = none →
          (record fetch ts).data.lookup coin = some Sample.na) := by
  intro fetch ts records
  refine ⟨rfl, ?_, ?_, rfl, ?_, ?_⟩
  · show (records ++ [record fetch ts]).take records.length = records
    exact List.take_left records _
  · show (records ++ [record fetch ts]).length = records.length + 1
    simp
  · intro coin hc p hp
    rw [lookup_record fetch ts coin hc, hp]
  · intro coin hc hp
    rw [lookup_record fetch ts coin hc, hp]

/-- Witness for C6 at a concrete log, a successful BTC fetch and a failed ETH
fetch. -/
theorem record_crypto_data_appends_witness :
    record_crypto_data fetch0 1 (LogRead.ok recs0) = recs0 ++ [record fetch0 1] ∧
    (record fetch0 1).data.lookup ("BTC") = some (Sample.num 200) ∧
    (record fetch0 1).data.lookup ("ETH") = some Sample.na := by
  obtain ⟨h1, -, -, -, h5, h6⟩ := record_crypto_data_appends fetch0 1 recs0
  exact ⟨h1, h5 ("BTC") (by decide) 200 rfl, h6 ("ETH") (by decide) rfl⟩

/-- C5: the trailing-window summary retains exactly the records with timestamp
at least `now - window`; a coin with at least one present sample gets a row
whose start is the first present sample, end the last, high the maximum and low
the minimum over present samples only, while a coin with zero present samples
gets no numeric row. -/
theorem post_daily_summary_window :
    ∀ (records : List TSRecord) (now window : ℤ) (coin : String),
      (∀ r, r ∈ recent_records records now window ↔
          r ∈ records ∧ now - window ≤ r.timestamp) ∧
      (prices (recent_records records now window) coin = [] →
          summary_row (recent_records records now window) coin = none) ∧
      (∀ p ps, prices (recent_records records now window) coin = p :: ps →
          ∃ row, summary_row (recent_records records now window) coin = some row ∧
            row.start_price = p ∧
            (p :: ps).getLast? = some row.end_price ∧
            row.high ∈ p :: ps ∧ (∀ q ∈ p :: ps, q ≤ row.high) ∧
            row.low ∈ p :: ps ∧ (∀ q ∈ p :: ps, row.low ≤ q)) := by
  intro records now window coin
  refine ⟨?_, ?_, ?_⟩
  · intro r
    simp [recent_records, List.mem_filter]
  · intro h
    simp [summary_row, h]
  · intro p ps h
    refine ⟨⟨p, (p :: ps).getLast (List.cons_ne_nil p ps), ps.foldl max p, ps.foldl min p,
        if p ≠ 0 then ((p :: ps).getLast (List.cons_ne_nil p ps) - p) / p * 100 else 0⟩,
      ?_, rfl, ?_, ?_, ?_, ?_, ?_⟩
    · simp [summary_row, h]
    · exact List.getLast?_eq_getLast _ _
    · exact foldl_max_mem p ps
    · exact le_foldl_max p ps
    · exact foldl_min_mem p ps
    · exact foldl_min_le p ps

/-- Witness for C5 at a concrete log: the stale record is dropped and the BTC
row is built from the single in-window sample. -/
theorem post_daily_summary_window_witness :
    ∃ row, summary_row (recent_records recsWindow 0 9) ("BTC") = some row ∧
      row.start_price = 3 ∧ ([(3 : ℚ)]).getLast? = some row.end_price ∧
      row.high ∈ [(3 : ℚ)] ∧ row.low ∈ [(3 : ℚ)] := by
  obtain ⟨-, -, h3⟩ := post_daily_summary_window recsWindow 0 9 ("BTC")
  obtain ⟨row, h, hs, he, hh, -, hl, -⟩ := h3 3 [] (by rfl)
  exact ⟨row, h, hs, he, hh, hl⟩

/-- C10: the daily-summary percent change is division-guarded — a zero start
price yields a reported change of 0, and only a nonzero start price is
divided by. -/
theorem summary_row_zero_guard :
    ∀ (recent : List TSRecord) (coin : String) (row : CoinRow),
      summary_row recent coin = some row →
        (row.start_price = 0 → row.change_percent = 0) ∧
        (row.start_price ≠ 0 →
          row.change_percent =
            (row.end_price - row.start_price) / row.start_price * 100) := by
  intro recent coin row hrow
  rcases h : prices recent coin with _ | ⟨p, ps⟩
  · simp [summary_row, h] at hrow
  · simp only [summary_row, h] at hrow
    injection hrow with hrow'
    subst hrow'
    constructor
    · intro h0
      simp only [CoinRow.change_percent] at *
      simp [h0]
    · intro h0
      simp only [CoinRow.change_percent] at *
      rw [if_pos h0]

/-- Witness for C10 at a concrete log whose first BTC sample is 0. -/
theorem summary_row_zero_guard_witness :
    ∃ row, summary_row recsZero ("BTC") = some row ∧ row.change_percent = 0 := by
  have hp : prices recsZero ("BTC") = [0, 5] := rfl
  have h : summary_row recsZero ("BTC") = some ⟨0, 5, 5, 0, 0⟩ := by
    simp [summary_row, hp]
  exact ⟨_, h, (summary_row_zero_guard recsZero ("BTC") _ h).1 rfl⟩

/-- C9 as amended: appending a record and summarizing with a window covering
its timestamp always reports the appended value as the row's end, and also as
its start when the prior log contributes no present in-window sample. -/
theorem record_then_summary :
    ∀ (fetch : String → Option ℚ) (ts : ℤ) (records : List TSRecord)
      (now window : ℤ) (coin : String) (p : ℚ),
      coin ∈ TOP_COINS → fetch coin = some p → now - window ≤ ts →
      ∃ row,
        summary_row (recent_records (record_crypto_data fetch ts (LogRead.ok records))
            now window) coin = some row ∧
        row.end_price = p ∧
        (prices (recent_records records now window) coin = [] → row.start_price = p) := by
  intro fetch ts records now window coin p hc hp hw
  have hrec : recent_records (record_crypto_data fetch ts (LogRead.ok records)) now window
      = recent_records records now window ++ [record fetch ts] := by
    unfold recent_records record_crypto_data existing_data
    rw [List.filter_append]
    simp [record]
    omega
  have hpr : prices (recent_records (record_crypto_data fetch ts (LogRead.ok records))
        now window) coin
      = prices (recent_records records now window) coin ++ [p] := by
    rw [hrec]
    unfold prices
    rw [List.filterMap_append]
    simp [lookup_record fetch ts coin hc, hp]
  rcases h0 : prices (recent_records records now window) coin with _ | ⟨q, qs⟩
  · rw [h0] at hpr
    simp only [List.nil_append] at hpr
    refine ⟨⟨p, p, p, p, if p ≠ 0 then (p - p) / p * 100 else 0⟩, ?_, rfl, fun _ => rfl⟩
    simp [summary_row, hpr]
  · rw [h0] at hpr
    have hgl : (q :: (qs ++ [p])).getLast (List.cons_ne_nil q (qs ++ [p])) = p := by
      have h1 : (q :: (qs ++ [p])).getLast? = some p := by
        rw [← List.cons_append]
        exact List.getLast?_concat _
      rw [List.getLast?_eq_getLast (q :: (qs ++ [p])) (List.cons_ne_nil q (qs ++ [p]))] at h1
      exact Option.some.inj h1
    refine ⟨⟨q, p, (qs ++ [p]).foldl max q, (qs ++ [p]).foldl min q,
        if q ≠ 0 then (p - q) / q * 100 else 0⟩, ?_, rfl, ?_⟩
    · simp [summary_row, hpr, hgl]
    · exact fun h => absurd h (List.cons_ne_nil q qs)

/-- Witness for the amended C9: appending BTC at 200 to an empty log and
summarizing reports 200 as both start and end. -/
theorem record_then_summary_witness :
    ∃ row, summary_row (recent_records (record_crypto_data fetch0 1 (LogRead.ok []))
        1 9) ("BTC") = some row ∧ row.end_price = 200 ∧ row.start_price = 200 := by
  obtain ⟨row, h1, h2, h3⟩ :=
    record_then_summary fetch0 1 [] 1 9 ("BTC") 200 (by decide) rfl (by decide)
  exact ⟨row, h1, h2, h3 rfl⟩

/-- Counterexample to C9 as stated: with a prior in-window BTC sample at 100,
appending 200 yields a summary whose start is 100, not the just-appended
value 200. -/
theorem record_then_summary_counterexample :
    summary_row (recent_records (record_crypto_data fetch0 1 (LogRead.ok recs0)) 1 9)
        ("BTC") = some ⟨100, 200, 200, 100, 100⟩ ∧ (100 : ℚ) ≠ 200 := by
  constructor
  · have h : prices (recent_records (record_crypto_data fetch0 1 (LogRead.ok recs0)) 1 9)
        ("BTC") = [100, 200] := rfl
    simp [summary_row, h]
    norm_num
  · norm_num

/-- C7 as amended: the recorder's append treats a corrupt or missing log
exactly as an empty log, while the daily summary posts nothing on a corrupt or
missing log — unlike on a genuinely empty log, where it posts the no-data
message. -/
theorem log_read_degrade :
    ∀ (fetch : String → Option ℚ) (ts now window : ℤ),
      record_crypto_data fetch ts LogRead.corrupt = record_crypto_data fetch ts (LogRead.ok []) ∧
      record_crypto_data fetch ts LogRead.missing = record_crypto_data fetch ts (LogRead.ok []) ∧
      post_daily_summary LogRead.corrupt now window = SummaryOutcome.no_post ∧
      post_daily_summary LogRead.missing now window = SummaryOutcome.no_post ∧
      post_daily_summary (LogRead.ok []) now window = SummaryOutcome.posted SummaryMsg.no_data := by
  intro fetch ts now window
  exact ⟨rfl, rfl, rfl, rfl, rfl⟩

/-- Counterexample to C7 as stated: the daily summary's observable result on a
corrupt log differs from its result on a genuinely empty log. -/
theorem log_read_degrade_counterexample :
    post_daily_summary LogRead.corrupt 0 9 ≠ post_daily_summary (LogRead.ok []) 0 9 := by
  decide

open List

/-- Helper: a filtered list is pairwise related when the key forces the
relation between any two kept elements. -/
lemma pairwise_filter_of_key {α : Type _} (r : α → α → Prop) (p : α → Bool)
    (hp : ∀ a b, p a = true → p b = true → r a b) (l : List α) :
    (l.filter p).Pairwise r :=
  List.pairwise_of_forall_mem_list (fun a ha b hb =>
    hp a b (List.of_mem_filter ha) (List.of_mem_filter hb))

/-- Helper (stability): a stable sort leaves the relative order of elements
with one fixed key unchanged, so filtering at that key commutes with it. -/
lemma insertionSort_filter_of_key {α : Type _} (r : α → α → Prop) [DecidableRel r]
    (p : α → Bool) (hp : ∀ a b, p a = true → p b = true → r a b) (l : List α) :
    (List.insertionSort r l).filter p = l.filter p := by
  have h0 : (l.filter p).Pairwise r := pairwise_filter_of_key r p hp l
  have h1 : l.filter p <+ List.insertionSort r l :=
    List.sublist_insertionSort h0 (List.filter_sublist l)
  have h2 : l.filter p <+ (List.insertionSort r l).filter p := by
    have h3 := h1.filter p
    rwa [List.filter_eq_self.mpr (fun a ha => List.of_mem_filter ha)] at h3
  have h4 : ((List.insertionSort r l).filter p).length = (l.filter p).length :=
    ((List.perm_insertionSort r l).filter p).length_eq
  exact (h2.eq_of_length h4.symm).symm

/-- Helper: filtering a `take` is a `take` of the filtered list. -/
lemma filter_take_exists {α : Type _} (p : α → Bool) :
    ∀ (n : ℕ) (l : List α), ∃ k, (l.take n).filter p = (l.filter p).take k := by
  intro n l
  induction l generalizing n with
  | nil => exact ⟨0, by simp⟩
  | cons a t ih =>
    cases n with
    | zero => exact ⟨0, by simp⟩
    | succ m =>
      obtain ⟨k, hk⟩ := ih m
      by_cases hpa : p a
      · exact ⟨k + 1, by simp [List.filter_cons, hpa, hk]⟩
      · exact ⟨k, by simp [List.filter_cons, hpa, hk]⟩

/-- Helper: filtering a `drop` is a `drop` of the filtered list. -/
lemma filter_drop_exists {α : Type _} (p : α → Bool) :
    ∀ (n : ℕ) (l : List α), ∃ k, (l.drop n).filter p = (l.filter p).drop k := by
  intro n l
  induction l generalizing n with
  | nil => exact ⟨0, by simp⟩
  | cons a t ih =>
    cases n with
    | zero => exact ⟨0, by simp⟩
    | succ m =>
      obtain ⟨k, hk⟩ := ih m
      by_cases hpa : p a
      · exact ⟨k + 1, by simp [List.filter_cons, hpa, hk]⟩
      · exact ⟨k, by simp [List.filter_cons, hpa, hk]⟩

/-- C2: for every all-USDT batch, the gainers are sorted descending and are
exactly the 5 highest movers, the losers are sorted ascending and are exactly
the 5 lowest; with fewer than 5 tickers both lists hold all of them; and ties
keep their input order (both sort passes are stable). -/
theorem top_movers_correct :
    ∀ l : List Ticker, (∀ t ∈ l, endswith t.symbol ("USDT") = true) →
      List.Sorted pctGe (top5_gainers l) ∧
      List.Sorted pctLe (top5_losers l) ∧
      (5 ≤ l.length → (top5_gainers l).length = 5 ∧ (top5_losers l).length = 5) ∧
      (∃ rest, l ~ top5_gainers l ++ rest ∧
        ∀ a ∈ top5_gainers l, ∀ b ∈ rest,
          b.priceChangePercent ≤ a.priceChangePercent) ∧
      (∃ rest, l ~ top5_losers l ++ rest ∧
        ∀ a ∈ top5_losers l, ∀ b ∈ rest,
          a.priceChangePercent ≤ b.priceChangePercent) ∧
      (l.length < 5 → (top5_gainers l).length = l.length ∧
        (top5_losers l).length = l.length ∧
        top5_gainers l ~ l ∧ top5_losers l ~ l) ∧
      (∀ c : ℚ, ∃ k, (top5_losers l).filter (fun t => t.priceChangePercent = c) =
          (l.filter (fun t => t.priceChangePercent = c)).take k) ∧
      (∀ c : ℚ, ∃ k, (top5_gainers l).filter (fun t => t.priceChangePercent = c) =
          (l.filter (fun t => t.priceChangePercent = c)).drop k) := by
  intro l hl
  have hU : usdt_tickers l = l := List.filter_eq_self.mpr hl
  have hsort : List.Sorted pctLe (sorted_usdt l) :=
    List.sorted_insertionSort pctLe _
  have hperm : sorted_usdt l ~ l := by
    unfold sorted_usdt
    rw [hU]
    exact List.perm_insertionSort pctLe l
  have hlen : (sorted_usdt l).length = l.length := hperm.length_eq
  refine ⟨?_, ?_, ?_, ?_, ?_, ?_, ?_, ?_⟩
  · exact List.sorted_insertionSort pctGe _
  · exact List.Pairwise.sublist (List.take_sublist 5 _) hsort
  · intro h5
    constructor
    · show (top5_gainers l).length = 5
      unfold top5_gainers
      rw [(List.perm_insertionSort pctGe _).length_eq, List.length_drop]
      omega
    · show ((sorted_usdt l).take 5).length = 5
      rw [List.length_take]
      omega
  · refine ⟨(sorted_usdt l).take ((sorted_usdt l).length - 5), ?_, ?_⟩
    · calc l ~ sorted_usdt l := hperm.symm
        _ = (sorted_usdt l).take ((sorted_usdt l).length - 5) ++
              (sorted_usdt l).drop ((sorted_usdt l).length - 5) :=
            (List.take_append_drop _ _).symm
        _ ~ (sorted_usdt l).drop ((sorted_usdt l).length - 5) ++
              (sorted_usdt l).take ((sorted_usdt l).length - 5) :=
            List.perm_append_comm
        _ ~ top5_gainers l ++ (sorted_usdt l).take ((sorted_usdt l).length - 5) :=
            ((List.perm_insertionSort pctGe _).symm).append_right _
    · intro a ha b hb
      have ha' : a ∈ (sorted_usdt l).drop ((sorted_usdt l).length - 5) :=
        ((List.perm_insertionSort pctGe _).mem_iff).mp ha
      have hsplit : List.Pairwise pctLe
          ((sorted_usdt l).take ((sorted_usdt l).length - 5) ++
            (sorted_usdt l).drop ((sorted_usdt l).length - 5)) := by
        rw [List.take_append_drop]
        exact hsort
      exact (List.pairwise_append.mp hsplit).2.2 b hb a ha'
  · refine ⟨(sorted_usdt l).drop 5, ?_, ?_⟩
    · show l ~ (sorted_usdt l).take 5 ++ (sorted_usdt l).drop 5
      rw [List.take_append_drop]
      exact hperm.symm
    · intro a ha b hb
      have hsplit : List.Pairwise pctLe
          ((sorted_usdt l).take 5 ++ (sorted_usdt l).drop 5) := by
        rw [List.take_append_drop]
        exact hsort
      exact (List.pairwise_append.mp hsplit).2.2 a ha b hb
  · intro hlt
    have hlt' : (sorted_usdt l).length < 5 := by omega
    have hdrop : (sorted_usdt l).length - 5 = 0 := by omega
    have hg : top5_gainers l ~ l := by
      unfold top5_gainers
      rw [hdrop, List.drop_zero]
      exact (List.perm_insertionSort pctGe _).trans hperm
    have hlo : top5_losers l = sorted_usdt l := by
      unfold top5_losers
      exact List.take_of_length_le (by omega)
    refine ⟨hg.length_eq, ?_, hg, ?_⟩
    · rw [hlo]
      exact hlen
    · rw [hlo]
      exact hperm
  · intro c
    obtain ⟨k, hk⟩ :=
      filter_take_exists (fun t : Ticker => decide (t.priceChangePercent = c)) 5
        (sorted_usdt l)
    have hfs : (sorted_usdt l).filter
          (fun t : Ticker => decide (t.priceChangePercent = c)) =
        l.filter (fun t : Ticker => decide (t.priceChangePercent = c)) := by
      unfold sorted_usdt
      rw [hU]
      exact insertionSort_filter_of_key pctLe _
        (fun a b hpa hpb =>
          le_of_eq ((of_decide_eq_true hpa).trans (of_decide_eq_true hpb).symm)) l
    refine ⟨k, ?_⟩
    show ((sorted_usdt l).take 5).filter _ = _
    rw [hk, hfs]
  · intro c
    obtain ⟨k, hk⟩ :=
      filter_drop_exists (fun t : Ticker => decide (t.priceChangePercent = c))
        ((sorted_usdt l).length - 5) (sorted_usdt l)
    have hfs : (sorted_usdt l).filter
          (fun t : Ticker => decide (t.priceChangePercent = c)) =
        l.filter (fun t : Ticker => decide (t.priceChangePercent = c)) := by
      unfold sorted_usdt
      rw [hU]
      exact insertionSort_filter_of_key pctLe _
        (fun a b hpa hpb =>
          le_of_eq ((of_decide_eq_true hpa).trans (of_decide_eq_true hpb).symm)) l
    have hfg : (top5_gainers l).filter
          (fun t : Ticker => decide (t.priceChangePercent = c)) =
        ((sorted_usdt l).drop ((sorted_usdt l).length - 5)).filter
          (fun t : Ticker => decide (t.priceChangePercent = c)) :=
      insertionSort_filter_of_key pctGe _
        (fun a b hpa hpb =>
          le_of_eq ((of_decide_eq_true hpb).trans (of_decide_eq_true hpa).symm)) _
    refine ⟨k, ?_⟩
    rw [hfg, hk, hfs]

/-- Witness for C2 at the five-ticker snapshot batch. -/
theorem top_movers_correct_witness :
    List.Sorted pctGe (top5_gainers snapshot_batch) ∧
      (top5_gainers snapshot_batch).length = 5 ∧
      (top5_losers snapshot_batch).length = 5 := by
  obtain ⟨h1, -, h3, -⟩ := top_movers_correct snapshot_batch (by decide)
  obtain ⟨hg, hl'⟩ := h3 (by decide)
  exact ⟨h1, hg, hl'⟩

/-- C1 as amended: on the scenario batch of exactly five USDT tickers, the
slices are not filtered by sign, so both returned lists hold all five entries;
the gainers list is the claimed three-element list extended by ETH and ADA,
and the losers list is the claimed two-element list extended by BNB, XRP and
BTC. -/
theorem top_movers_scenario :
    (top5_gainers snapshot_batch).map (fun t => (t.symbol, t.priceChangePercent)) =
      [(("BTCUSDT"), (7 : ℚ) / 2), (("XRPUSDT"), 1 / 5), (("BNBUSDT"), 1 / 10),
       (("ETHUSDT"), -3), (("ADAUSDT"), -5)] ∧
    (top5_losers snapshot_batch).map (fun t => (t.symbol, t.priceChangePercent)) =
      [(("ADAUSDT"), (-5 : ℚ)), (("ETHUSDT"), -3), (("BNBUSDT"), 1 / 10),
       (("XRPUSDT"), 1 / 5), (("BTCUSDT"), 7 / 2)] := by
  constructor <;>
    norm_num [top5_gainers, top5_losers, sorted_usdt, usdt_tickers, snapshot_batch,
      pctLe, pctGe, endswith]

/-- Helper: the news formatting loop raises exactly when some fetched entry
is not a JSON object. -/
lemma news_lines_error_iff :
    ∀ l : List NewsEntry, news_lines l = Except.error () ↔ NewsEntry.notObj ∈ l := by
  intro l
  induction l with
  | nil => simp [news_lines]
  | cons a t ih =>
    cases a with
    | notObj => simp [news_lines]
    | post title url =>
      cases h : news_lines t with
      | ok items =>
        simp [news_lines, h]
        intro hm
        rw [ih.mpr hm] at h
        simp at h
      | error e =>
        cases e
        simp [news_lines, h, ih.mp h]

/-- C8 as amended: the Binance fetch helpers convert every internal failure
into a `None` placeholder and the news fetch converts every failure raised
inside it into an empty list; `post_top5_update`, whose whole body sits in
`try/except`, returns normally for every failure mode; but `post_crypto_news`
formats outside its `try`, so it returns normally exactly when every fetched
news entry is a JSON object — a publish failure is still swallowed, while a
malformed entry propagates out of the job.  The scheduler itself executes
every job on every tick regardless of earlier failures. -/
theorem job_error_policy :
    (∀ u, fetch_binance_price u = none ∨ ∃ q, fetch_binance_price u = some q) ∧
    fetch_binance_price UpstreamPrice.error = none ∧
    fetch_binance_price (UpstreamPrice.response none) = none ∧
    fetch_binance_price (UpstreamPrice.response (some PriceParse.malformed)) = none ∧
    fetch_binance_ticker UpstreamTicker.error = none ∧
    fetch_cryptopanic_news UpstreamNews.error = [] ∧
    fetch_cryptopanic_news (UpstreamNews.response none) = [] ∧
    (∀ env : Top5Env, post_top5_update env = Except.ok ()) ∧
    (∀ (news : UpstreamNews) (publish : Except Unit Unit),
      post_crypto_news news publish = Except.ok () ↔
        NewsEntry.notObj ∉ fetch_cryptopanic_news news) ∧
    (∀ (jobs : List (ℕ → Except Unit Unit)) (n : ℕ),
      (scheduler_run jobs n).length = n ∧
      ∀ tick ∈ scheduler_run jobs n, tick.length = jobs.length) := by
  refine ⟨?_, rfl, rfl, rfl, rfl, rfl, rfl, ?_, ?_, ?_⟩
  · intro u
    cases u with
    | error => exact Or.inl rfl
    | response f =>
      cases f with
      | none => exact Or.inl rfl
      | some pp =>
        cases pp with
        | malformed => exact Or.inl rfl
        | value q => exact Or.inr ⟨q, rfl⟩
  · intro env
    cases h : env.publish with
    | ok u => simp [post_top5_update, post_top5_update_body, h]
    | error e => simp [post_top5_update, post_top5_update_body, h]
  · intro news publish
    cases hf : fetch_cryptopanic_news news with
    | nil =>
      cases publish <;> simp [post_crypto_news, get_crypto_news_text, hf]
    | cons p ps =>
      cases hl : news_lines (p :: ps) with
      | ok items =>
        have hnm : NewsEntry.notObj ∉ p :: ps := by
          intro hm
          rw [(news_lines_error_iff (p :: ps)).mpr hm] at hl
          simp at hl
        cases publish <;>
          simp [post_crypto_news, get_crypto_news_text, hf, hl, hnm]
      | error e =>
        cases e
        have hm : NewsEntry.notObj ∈ p :: ps := (news_lines_error_iff (p :: ps)).mp hl
        simp [post_crypto_news, get_crypto_news_text, hf, hl, hm]
  · intro jobs n
    constructor
    · induction n with
      | zero => rfl
      | succ m ih => simp [scheduler_run, ih]
    · induction n with
      | zero =>
        intro t ht
        simp [scheduler_run] at ht
      | succ m ih =>
        intro t ht
        simp only [scheduler_run, List.mem_append, List.mem_singleton] at ht
        rcases ht with h | h
        · exact ih t h
        · subst h
          simp [scheduler_tick]

/-- Witness for the amended C8: a job failing on its first tick next to a
healthy job leaves both ticks executing both jobs, and a news job whose
publish fails but whose fetched entry is a proper object still returns
normally. -/
theorem job_error_policy_witness :
    ((scheduler_run [job_fail, job_ok] 2).length = 2 ∧
      ∀ tick ∈ scheduler_run [job_fail, job_ok] 2, tick.length = 2) ∧
    scheduler_run [job_fail, job_ok] 2 = [[false, true], [true, true]] ∧
    post_crypto_news (UpstreamNews.response (some [NewsEntry.post ("T") ("U")]))
      (Except.error ()) = Except.ok () := by
  obtain ⟨-, -, -, -, -, -, -, -, h9, h10⟩ := job_error_policy
  exact ⟨h10 [job_fail, job_ok] 2, rfl,
    (h9 (UpstreamNews.response (some [NewsEntry.post ("T") ("U")]))
      (Except.error ())).mpr (by decide)⟩

/-- Counterexample to C8 as stated: a well-delivered news response whose
single `results` entry is not a JSON object makes the news job propagate an
error out of its body even though its publish step would have succeeded. -/
theorem job_error_policy_counterexample :
    post_crypto_news (UpstreamNews.response (some [NewsEntry.notObj]))
      (Except.ok ()) = Except.error () := rfl

/-- Counterexample to C1 as stated: on the scenario batch the returned gainers
list is not the three-element list `[BTC, XRP, BNB]` and the losers list is not
the two-element list `[ADA, ETH]`. -/
theorem top_movers_scenario_counterexample :
    ¬ ((top5_gainers snapshot_batch).map (fun t => (t.symbol, t.priceChangePercent)) =
        [(("BTCUSDT"), (7 : ℚ) / 2), (("XRPUSDT"), 1 / 5), (("BNBUSDT"), 1 / 10)] ∧
      (top5_losers snapshot_batch).map (fun t => (t.symbol, t.priceChangePercent)) =
        [(("ADAUSDT"), (-5 : ℚ)), (("ETHUSDT"), -3)]) := by
  rintro ⟨h1, -⟩
  norm_num [top5_gainers, sorted_usdt, usdt_tickers, snapshot_batch,
    pctLe, pctGe, endswith] at h1
  exact absurd h1 (by simp)

end Ttbs
